import Mathlib

/-!
Verification development for the Simpress request-dispatch engine
(`src/unnamed/part_006`, `src/unnamed/part_000`, `src/11/simpressjs/router.js`).

The engine's core is embedded shallowly:

* `PathPattern` models the JavaScript `RegExp` objects the engine builds.
  A pattern carries its `source` string (used for registry keys, exactly as
  `path.source` is in the source) and its `test` predicate.  For patterns
  built from literal string paths — the expression
  `new RegExp('^' + path + '\\/?$|\\?')` at `router.js:71` /
  `part_006:89` — the `test` predicate is derived by `compileString`, which
  parses the path over the regex fragment the routes of this repository
  use (plain characters, the `.` wildcard, single-character escapes) and
  otherwise reports failure, the model of the `RegExp` constructor
  throwing at registration time.
* `Route`, `Router`, `Simpress` carry the same fields as the classes of the
  same names; middlewares and handlers are identified by `Nat` ids, and
  their behaviour is supplied by an `MwEnv` environment, which is how the
  JavaScript function references stored in the lists are modelled.
  JavaScript `Array.includes` reference-identity checks become id
  membership checks; `Map.set`/`Map.get` become `mapSet`/`mapGet` over an
  association list that preserves insertion order and replaces in place.
* `Simpress.toListener` is the dispatch algorithm of `part_006:122-156`:
  first match wins, then the three tiers `[this, router, route]` run in
  order (`runTiers`/`runMws`), a non-`undefined` continuation value starts
  the same tier's error cascade (`runCascade`), and only a fully clean run
  reaches `route.listener`.  Execution also produces a trace of events so
  that ordering claims can be stated.
-/

/-- A JavaScript value passed to a middleware continuation (`resolve`).
`undef` models `undefined`; every other constructor models a value for
which `err !== undefined` holds in `part_006:134`. -/
inductive JsValue where
  | undef
  | nullV
  | boolean (b : Bool)
  | number (n : Int)
  | strV (s : String)
  | errObj (msg : String)
deriving DecidableEq

/-- One atom of the regex fragment used by literal route paths: a literal
character, or the `.` wildcard. -/
inductive RxAtom where
  | lit (c : Char)
  | anyDot
deriving DecidableEq

/-- Characters that are regex metacharacters (other than `.`): a literal
path containing one of these unescaped is outside the modelled fragment
(`(`/`[`-style inputs make the `RegExp` constructor throw). -/
def rxMeta : List Char := ['(', ')', '[', ']', '{', '}', '|', '^', '$', '*', '+', '?']

/-- Characters accepted after a backslash as a self-quoting escape. -/
def rxEscapable : List Char :=
  ['/', '?', '.', '\\', '^', '$', '|', '(', ')', '[', ']', '{', '}', '*', '+']

/-- Parse a literal route-path string into regex atoms.  `none` models a
path on which `new RegExp('^' + path + '\\/?$|\\?')` fails (or uses regex
features outside the modelled fragment). -/
def parseAtoms : List Char → Option (List RxAtom)
  | [] => some []
  | '\\' :: c :: rest =>
      if rxEscapable.contains c then (parseAtoms rest).map (fun as => RxAtom.lit c :: as)
      else none
  | ['\\'] => none
  | c :: rest =>
      if c = '.' then (parseAtoms rest).map (fun as => RxAtom.anyDot :: as)
      else if rxMeta.contains c then none
      else (parseAtoms rest).map (fun as => RxAtom.lit c :: as)

/-- Whether one atom matches one character.  `.` in JavaScript matches any
character except the four line terminators. -/
def atomTest : RxAtom → Char → Bool
  | RxAtom.lit c, d => c = d
  | RxAtom.anyDot, d =>
      !(d = '\n' || d = '\r' || d = Char.ofNat 0x2028 || d = Char.ofNat 0x2029)

/-- Whether a fixed-length atom sequence matches a whole character list. -/
def atomsTest : List RxAtom → List Char → Bool
  | [], [] => true
  | [], _ :: _ => false
  | _ :: _, [] => false
  | a :: as, c :: cs => atomTest a c && atomsTest as cs

/-- The anchored branch `^body\/?$` of the compiled pattern: the whole
string matches the body, or it matches the body followed by one `/`. -/
def anchoredTest (atoms : List RxAtom) (cs : List Char) : Bool :=
  atomsTest atoms cs || (cs.getLast? == some '/' && atomsTest atoms cs.dropLast)

/-- `RegExp.prototype.test` for the compiled pattern `^body\/?$|\?`: the
alternation has low precedence, so the whole pattern matches iff the
anchored branch matches the whole string or the unanchored branch `\?`
finds a `?` anywhere in it. -/
def strPatternTest (atoms : List RxAtom) (cs : List Char) : Bool :=
  anchoredTest atoms cs || cs.contains '?'

/-- Model of a JavaScript `RegExp` as the engine uses one: its `source`
string and its `test` predicate. -/
structure PathPattern where
  source : String
  test : String → Bool

/-- `new RegExp('^' + path + '\\/?$|\\?')` for a literal string `path`
(`part_006:89`, `router.js:71`): `none` when the constructor throws
(modelled fragment), otherwise the pattern with the concatenated source
and the `test` semantics above. -/
def compileString (p : String) : Option PathPattern :=
  (parseAtoms p.data).map fun atoms =>
    { source := "^" ++ p ++ "\\/?$|\\?"
      test := fun u => strPatternTest atoms u.data }

/-- A route path argument: a literal string or an already-built `RegExp`. -/
inductive PathSpec where
  | str (s : String)
  | regex (p : PathPattern)

/-- The failure of `new RegExp` on a malformed pattern (a `SyntaxError`
in JavaScript; the spec's `InvalidPatternError`). -/
inductive PatternError where
  | invalidPattern
deriving DecidableEq

/-- `typeof path === 'string' ? new RegExp(...) : path`. -/
def compilePath : PathSpec → Option PathPattern
  | PathSpec.str s => compileString s
  | PathSpec.regex p => some p

/-- `class Route` (`part_000:24-105`): path pattern, method, listener and
the route-scoped middleware lists.  Functions are identified by ids. -/
structure Route where
  path : PathPattern
  method : String
  listener : Nat
  middlewares : List Nat
  errMiddlewares : List Nat

/-- `Route.use`: append unless already present (`includes` guard). -/
def Route.use (r : Route) (m : Nat) : Route :=
  if r.middlewares.contains m then r
  else { r with middlewares := r.middlewares ++ [m] }

/-- `Route.useForError`: append unless already present. -/
def Route.useForError (r : Route) (m : Nat) : Route :=
  if r.errMiddlewares.contains m then r
  else { r with errMiddlewares := r.errMiddlewares ++ [m] }

/-- `Map.prototype.set`: replace the value in place when the key exists
(the entry keeps its insertion position), append otherwise. -/
def mapSet (k : String) (v : Route) : List (String × Route) → List (String × Route)
  | [] => [(k, v)]
  | (k', v') :: rest => if k' = k then (k, v) :: rest else (k', v') :: mapSet k v rest

/-- `Map.prototype.get`. -/
def mapGet (k : String) : List (String × Route) → Option Route
  | [] => none
  | (k', v') :: rest => if k' = k then some v' else mapGet k rest

/-- `class Router` (`router.js:9-94`): routes map plus router-scoped
middleware lists. -/
structure Router where
  routes : List (String × Route)
  middlewares : List Nat
  errMiddlewares : List Nat

/-- `new Router()`. -/
def Router.new : Router := ⟨[], [], []⟩

/-- `Router.use`. -/
def Router.use (rt : Router) (m : Nat) : Router :=
  if rt.middlewares.contains m then rt
  else { rt with middlewares := rt.middlewares ++ [m] }

/-- `Router.useForError`. -/
def Router.useForError (rt : Router) (m : Nat) : Router :=
  if rt.errMiddlewares.contains m then rt
  else { rt with errMiddlewares := rt.errMiddlewares ++ [m] }

/-- `Router.route` (`router.js:70-78`): compile string paths (which can
throw — `Except.error`), build the `Route`, and `set` it under the key
`method + '|' + path.source`.  Returns the updated router and the route. -/
def Router.route (rt : Router) (path : PathSpec) (method : String) (listener : Nat) :
    Except PatternError (Router × Route) :=
  match compilePath path with
  | none => Except.error PatternError.invalidPattern
  | some pat =>
      let r : Route :=
        { path := pat, method := method, listener := listener
          middlewares := [], errMiddlewares := [] }
      Except.ok
        ({ rt with routes := mapSet (method ++ "|" ++ pat.source) r rt.routes }, r)

/-- `Router.findRoute` (`router.js:87-93`). -/
def Router.findRoute (rt : Router) (path : PathSpec) (method : String) :
    Except PatternError (Option Route) :=
  match compilePath path with
  | none => Except.error PatternError.invalidPattern
  | some pat => Except.ok (mapGet (method ++ "|" ++ pat.source) rt.routes)

/-- `class Simpress` (`part_006:13-157`).  The constructor makes
`_routers = [new Router()]`; the always-present first router is kept as a
separate field so the invariant is structural. -/
structure Simpress where
  middlewares : List Nat
  errMiddlewares : List Nat
  defaultRouter : Router
  extraRouters : List Router

/-- `new Simpress()`. -/
def Simpress.new : Simpress := ⟨[], [], Router.new, []⟩

/-- The `_routers` array: default router first. -/
def Simpress.allRouters (app : Simpress) : List Router :=
  app.defaultRouter :: app.extraRouters

/-- `Simpress.use`. -/
def Simpress.use (app : Simpress) (m : Nat) : Simpress :=
  if app.middlewares.contains m then app
  else { app with middlewares := app.middlewares ++ [m] }

/-- `Simpress.useForError`. -/
def Simpress.useForError (app : Simpress) (m : Nat) : Simpress :=
  if app.errMiddlewares.contains m then app
  else { app with errMiddlewares := app.errMiddlewares ++ [m] }

/-- `Simpress.useRouter`: append to `_routers`.  (The JavaScript
`includes` guard compares router object references; distinct appended
routers are modelled as distinct list entries.) -/
def Simpress.useRouter (app : Simpress) (rt : Router) : Simpress :=
  { app with extraRouters := app.extraRouters ++ [rt] }

/-- `Simpress.route` (`part_006:88-96`): like `Router.route`, registering
into `this._routers[0]`. -/
def Simpress.route (app : Simpress) (path : PathSpec) (method : String) (listener : Nat) :
    Except PatternError (Simpress × Route) :=
  match compilePath path with
  | none => Except.error PatternError.invalidPattern
  | some pat =>
      let r : Route :=
        { path := pat, method := method, listener := listener
          middlewares := [], errMiddlewares := [] }
      Except.ok
        ({ app with
            defaultRouter :=
              { app.defaultRouter with
                  routes := mapSet (method ++ "|" ++ pat.source) r app.defaultRouter.routes } },
         r)

/-- First `Router` in `_routers` holding the key, as scanned by
`Simpress.findRoute` (`part_006:108-112`). -/
def findInRouters (k : String) : List Router → Option Route
  | [] => none
  | rt :: rest =>
      match mapGet k rt.routes with
      | some r => some r
      | none => findInRouters k rest

/-- `Simpress.findRoute` (`part_006:105-115`). -/
def Simpress.findRoute (app : Simpress) (path : PathSpec) (method : String) :
    Except PatternError (Option Route) :=
  match compilePath path with
  | none => Except.error PatternError.invalidPattern
  | some pat => Except.ok (findInRouters (method ++ "|" ++ pat.source) app.allRouters)

/-- The request object: `req.url`, `req.method`, and the `pathRegex`
field the dispatcher attaches at `part_006:128`. -/
structure Req where
  url : String
  method : String
  pathRegex : Option PathPattern

/-- The response object, as far as the core writes it: `writeHead` status,
body written by `end`, and whether `end` was called. -/
structure Res where
  status : Option Nat
  body : Option String
  ended : Bool
deriving DecidableEq

/-- `res.writeHead(404); res.end()` (`part_006:153-154`): status 404,
stream ended, nothing written as body. -/
def write404 (r : Res) : Res :=
  { r with status := some 404, ended := true }

/-- The mutable per-request state a middleware sees: request and response. -/
structure PipeSt where
  req : Req
  res : Res

/-- Behaviour of the function references stored in the middleware lists:
given its id, a middleware maps the state to an updated state plus the
value it passes to `resolve`; an error middleware additionally receives
the current error value; a listener updates the state. -/
structure MwEnv where
  mwRun : Nat → PipeSt → PipeSt × JsValue
  emwRun : Nat → JsValue → PipeSt → PipeSt × JsValue
  handlerRun : Nat → PipeSt → PipeSt

/-- Observable events of one dispatch: a middleware ran, an error
middleware ran, the route listener ran. -/
inductive Ev where
  | mw (id : Nat)
  | emw (id : Nat)
  | handler (id : Nat)
deriving DecidableEq

/-- The error cascade (`part_006:135-139`): run the tier's error
middlewares in order, rebinding `err` each time, and stop (returning from
the listener) as soon as one resolves with `undefined`; falling off the
end also returns. -/
def runCascade (env : MwEnv) : JsValue → List Nat → PipeSt → PipeSt × List Ev
  | _, [], st => (st, [])
  | e, i :: rest, st =>
      let r := env.emwRun i e st
      if r.2 = JsValue.undef then (r.1, [Ev.emw i])
      else
        let q := runCascade env r.2 rest r.1
        (q.1, Ev.emw i :: q.2)

/-- One tier's middleware loop (`part_006:131-143`): run each middleware;
on `err !== undefined` run this tier's cascade and stop the pipeline
(the `Bool` result is whether the pipeline continues). -/
def runMws (env : MwEnv) (emws : List Nat) : List Nat → PipeSt → PipeSt × List Ev × Bool
  | [], st => (st, [], true)
  | m :: rest, st =>
      let r := env.mwRun m st
      if r.2 = JsValue.undef then
        let q := runMws env emws rest r.1
        (q.1, Ev.mw m :: q.2.1, q.2.2)
      else
        let q := runCascade env r.2 emws r.1
        (q.1, Ev.mw m :: q.2, false)

/-- The tier loop `for (const level of [this, router, route])`
(`part_006:130`): each tier is its middleware list paired with its error
middleware list; a tier that stops the pipeline prevents all later tiers. -/
def runTiers (env : MwEnv) : List (List Nat × List Nat) → PipeSt → PipeSt × List Ev × Bool
  | [], st => (st, [], true)
  | t :: rest, st =>
      let r := runMws env t.2 t.1 st
      if r.2.2 then
        let q := runTiers env rest r.1
        (q.1, r.2.1 ++ q.2.1, q.2.2)
      else (r.1, r.2.1, false)

/-- `route.path.test(req.url) && req.method === route.method`
(`part_006:127`). -/
def matchesRoute (route : Route) (req : Req) : Bool :=
  route.path.test req.url && req.method == route.method

/-- First matching route within one router's `routes` map, in insertion
order. -/
def findInRoutes (req : Req) : List (String × Route) → Option Route
  | [] => none
  | kr :: rest => if matchesRoute kr.2 req then some kr.2 else findInRoutes req rest

/-- Scan of a router list for the first matching route: the outer two
loops of `part_006:124-125` with their early exit. -/
def firstMatchAux (req : Req) : List Router → Option (Router × Route)
  | [] => none
  | rt :: rest =>
      match findInRoutes req rt.routes with
      | some r => some (rt, r)
      | none => firstMatchAux req rest

/-- First matching (router, route) pair across `_routers` in order. -/
def firstMatch (app : Simpress) (req : Req) : Option (Router × Route) :=
  firstMatchAux req app.allRouters

/-- The three tiers of a matched request, in the fixed order
`[this, router, route]`. -/
def tiersOf (app : Simpress) (router : Router) (route : Route) :
    List (List Nat × List Nat) :=
  [(app.middlewares, app.errMiddlewares),
   (router.middlewares, router.errMiddlewares),
   (route.middlewares, route.errMiddlewares)]

/-- `Simpress.toListener` (`part_006:122-156`): find the first matching
route; if none, write the 404 and end with no body; otherwise bind
`req.pathRegex`, run the three tiers, and invoke `route.listener` exactly
when every tier completed without an error. -/
def Simpress.toListener (env : MwEnv) (app : Simpress) (st : PipeSt) : PipeSt × List Ev :=
  match firstMatch app st.req with
  | none => ({ st with res := write404 st.res }, [])
  | some (router, route) =>
      let st1 : PipeSt := { st with req := { st.req with pathRegex := some route.path } }
      let r := runTiers env (tiersOf app router route) st1
      if r.2.2 then
        (env.handlerRun route.listener r.1, r.2.1 ++ [Ev.handler route.listener])
      else (r.1, r.2.1)

/-- Modelled from the spec: the pattern behaviour §4.1 ascribes to a
literal string path — the string escaped (metacharacters neutralised,
hence compared literally) and anchored, with an optional trailing
separator before end-of-string.  Used only to compare the spec's reading
against the pattern the code actually builds. -/
def specEscapedTest (p u : String) : Bool :=
  u == p || u == p ++ "/"

/-! Concrete sample values used by the witness theorems. -/

/-- A pattern that matches every URL (stands for a user-supplied RegExp). -/
def patTrue : PathPattern := { source := "p", test := fun _ => true }

/-- A sample request. -/
def req0 : Req := { url := "/x", method := "GET", pathRegex := none }

/-- A fresh response: nothing written. -/
def res0 : Res := { status := none, body := none, ended := false }

/-- Initial dispatch state for the sample request. -/
def st0 : PipeSt := { req := req0, res := res0 }

/-- An environment in which every middleware leaves the state unchanged
and signals success (`undefined`). -/
def undefEnv : MwEnv :=
  { mwRun := fun _ st => (st, JsValue.undef)
    emwRun := fun _ _ st => (st, JsValue.undef)
    handlerRun := fun _ st => st }

/-- An environment in which middleware 5 signals an error, error
middleware 7 resolves (passes `undefined`), and every other error
middleware re-signals a fresh error. -/
def envFail : MwEnv :=
  { mwRun := fun m st => (st, if m = 5 then JsValue.errObj "boom" else JsValue.undef)
    emwRun := fun i _ st => (st, if i = 7 then JsValue.undef else JsValue.errObj "resig")
    handlerRun := fun _ st => st }

/-- Sample route with one route-tier middleware. -/
def routeC1 : Route :=
  { path := patTrue, method := "GET", listener := 9
    middlewares := [4], errMiddlewares := [] }

/-- Sample app: two app-tier middlewares, one router-tier middleware,
one route. -/
def appC1 : Simpress :=
  { middlewares := [1, 2], errMiddlewares := []
    defaultRouter := { routes := [("k", routeC1)], middlewares := [3], errMiddlewares := [] }
    extraRouters := [] }

/-- Sample route whose first middleware (5) errors; 6 must never run;
error middlewares 7 (resolver) then 8. -/
def routeC2 : Route :=
  { path := patTrue, method := "GET", listener := 9
    middlewares := [5, 6], errMiddlewares := [7, 8] }

/-- Sample app owning `routeC2`, with one app-tier middleware. -/
def appC2 : Simpress :=
  { middlewares := [1], errMiddlewares := []
    defaultRouter := { routes := [("k", routeC2)], middlewares := [], errMiddlewares := [] }
    extraRouters := [] }

/-- Sample route whose middleware errors; error middlewares: 8
(re-signals), 7 (resolves), 9 (must never run). -/
def routeC3 : Route :=
  { path := patTrue, method := "GET", listener := 9
    middlewares := [5], errMiddlewares := [8, 7, 9] }

/-- Sample app owning `routeC3`. -/
def appC3 : Simpress :=
  { middlewares := [], errMiddlewares := []
    defaultRouter := { routes := [("k", routeC3)], middlewares := [], errMiddlewares := [] }
    extraRouters := [] }

/-- Sample route whose middleware errors and whose only error middleware
(8) never resolves: the cascade exhausts. -/
def routeC8 : Route :=
  { path := patTrue, method := "GET", listener := 9
    middlewares := [5], errMiddlewares := [8] }

/-- Sample app owning `routeC8`. -/
def appC8 : Simpress :=
  { middlewares := [], errMiddlewares := []
    defaultRouter := { routes := [("k", routeC8)], middlewares := [], errMiddlewares := [] }
    extraRouters := [] }

/-- Sample app whose single route requires method POST, so a GET request
matches nothing. -/
def appC5 : Simpress :=
  { middlewares := [1], errMiddlewares := [2]
    defaultRouter :=
      { routes := [("k", { path := patTrue, method := "POST", listener := 9
                           middlewares := [3], errMiddlewares := [4] })]
        middlewares := [], errMiddlewares := [] }
    extraRouters := [] }

/-- Sample route for the undefined-is-success claim: middleware 0, error
middlewares 1 then 2. -/
def routeC10 : Route :=
  { path := patTrue, method := "GET", listener := 9
    middlewares := [0], errMiddlewares := [1, 2] }

/-- Sample app owning `routeC10`. -/
def appC10 : Simpress :=
  { middlewares := [], errMiddlewares := []
    defaultRouter := { routes := [("k", routeC10)], middlewares := [], errMiddlewares := [] }
    extraRouters := [] }

/-- Environment for the undefined-is-success claim: middleware 0 passes
`v` to its continuation, error middleware 1 passes `w`, error middleware
2 passes `undefined`. -/
def envC10 (v w : JsValue) : MwEnv :=
  { mwRun := fun m st => (st, if m = 0 then v else JsValue.undef)
    emwRun := fun i _ st => (st, if i = 1 then w else JsValue.undef)
    handlerRun := fun _ st => st }

/-- The compiled pattern for the literal path `/x`. -/
def patX : PathPattern :=
  (compileString "/x").getD { source := "", test := fun _ => false }

/-- The route `GET /x` with listener 1, as built by registration. -/
def r1w : Route :=
  { path := patX, method := "GET", listener := 1, middlewares := [], errMiddlewares := [] }

/-- The route `GET /x` with listener 2, as built by re-registration. -/
def r2w : Route :=
  { path := patX, method := "GET", listener := 2, middlewares := [], errMiddlewares := [] }

/-- The app after registering `GET /x` with listener 1. -/
def app1w : Simpress :=
  { middlewares := [], errMiddlewares := []
    defaultRouter :=
      { routes := [("GET" ++ "|" ++ patX.source, r1w)], middlewares := [], errMiddlewares := [] }
    extraRouters := [] }

/-- The app after re-registering `GET /x` with listener 2: the same key
now holds the replacement route. -/
def app2w : Simpress :=
  { middlewares := [], errMiddlewares := []
    defaultRouter :=
      { routes := [("GET" ++ "|" ++ patX.source, r2w)], middlewares := [], errMiddlewares := [] }
    extraRouters := [] }

/-- The compiled pattern for the literal path `/a.b` (note the unescaped
`.`). -/
def patAB : PathPattern :=
  (compileString "/a.b").getD { source := "", test := fun _ => false }

/-- The route `GET /a.b` with listener 0, as built by registration. -/
def rAB : Route :=
  { path := patAB, method := "GET", listener := 0, middlewares := [], errMiddlewares := [] }

/-- The app after registering `GET /a.b`. -/
def appAB : Simpress :=
  { middlewares := [], errMiddlewares := []
    defaultRouter :=
      { routes := [("GET" ++ "|" ++ patAB.source, rAB)], middlewares := [], errMiddlewares := [] }
    extraRouters := [] }

/-! Pipeline lemmas. -/

/-- A tier whose middlewares all signal `undefined` produces exactly its
middleware events, in list order, and lets the pipeline continue. -/
theorem runMws_ok (env : MwEnv) (emws : List Nat) :
    ∀ (mws : List Nat) (st : PipeSt),
      (∀ m ∈ mws, ∀ s, (env.mwRun m s).2 = JsValue.undef) →
      (runMws env emws mws st).2 = (mws.map Ev.mw, true) := by
  intro mws
  induction mws with
  | nil => intro st _; rfl
  | cons m rest ih =>
      intro st h
      have hm := h m (by simp) st
      have ihr := ih (env.mwRun m st).1 (fun m' h' s => h m' (by simp [h']) s)
      simp [runMws, hm, ihr]

/-- When every middleware of every tier signals `undefined`, the tier
loop produces the concatenation of the per-tier event lists, in tier
order, and continues to the handler. -/
theorem runTiers_ok (env : MwEnv) :
    ∀ (tiers : List (List Nat × List Nat)) (st : PipeSt),
      (∀ m ∈ (tiers.map Prod.fst).flatten, ∀ s, (env.mwRun m s).2 = JsValue.undef) →
      (runTiers env tiers st).2 = ((tiers.map (fun t => t.1.map Ev.mw)).flatten, true) := by
  intro tiers
  induction tiers with
  | nil => intro st _; rfl
  | cons t rest ih =>
      intro st h
      simp only [List.map_cons, List.flatten_cons] at h
      have h1 : ∀ m ∈ t.1, ∀ s, (env.mwRun m s).2 = JsValue.undef :=
        fun m hm s => h m (List.mem_append_left _ hm) s
      have h2 : ∀ m ∈ (rest.map Prod.fst).flatten, ∀ s, (env.mwRun m s).2 = JsValue.undef :=
        fun m hm s => h m (List.mem_append_right _ hm) s
      have hmws := runMws_ok env t.2 t.1 st h1
      have ihr := ih (runMws env t.2 t.1 st).1 h2
      simp [runTiers, hmws, ihr]

/-- A handler event never occurs among middleware events. -/
theorem count_handler_map_mw (l : Nat) (L : List Nat) :
    (L.map Ev.mw).count (Ev.handler l) = 0 := by
  rw [List.count_eq_zero]
  simp

/-- Claim C1: for every request that matches a route, the three middleware
tiers execute in the fixed order application, owning router, matched
route, each tier in registration order, and only after all three tiers
complete without error is the route's listener invoked, exactly once. -/
theorem claim_c1_tier_order (env : MwEnv) (app : Simpress) (st : PipeSt)
    (router : Router) (route : Route)
    (hmatch : firstMatch app st.req = some (router, route))
    (hok : ∀ m ∈ app.middlewares ++ router.middlewares ++ route.middlewares,
      ∀ s, (env.mwRun m s).2 = JsValue.undef) :
    (Simpress.toListener env app st).2
      = app.middlewares.map Ev.mw ++ router.middlewares.map Ev.mw
        ++ route.middlewares.map Ev.mw ++ [Ev.handler route.listener]
    ∧ ((Simpress.toListener env app st).2).count (Ev.handler route.listener) = 1 := by
  have hjoin : ∀ m ∈ ((tiersOf app router route).map Prod.fst).flatten,
      ∀ s, (env.mwRun m s).2 = JsValue.undef := by
    intro m hm s
    refine hok m ?_ s
    simp only [tiersOf, List.map_cons, List.map_nil, List.flatten_cons, List.flatten_nil,
      List.append_nil] at hm
    simpa [List.mem_append] using hm
  have htr := runTiers_ok env (tiersOf app router route)
      { st with req := { st.req with pathRegex := some route.path } } hjoin
  simp only [tiersOf] at htr
  have htrace : (Simpress.toListener env app st).2
      = app.middlewares.map Ev.mw ++ router.middlewares.map Ev.mw
        ++ route.middlewares.map Ev.mw ++ [Ev.handler route.listener] := by
    simp [Simpress.toListener, hmatch, htr, tiersOf]
  refine ⟨htrace, ?_⟩
  rw [htrace]
  simp [List.count_append, count_handler_map_mw]

/-- Witness for C1 on a concrete app: middlewares 1, 2 (application tier),
3 (router tier), 4 (route tier) run in that order, then listener 9, once. -/
theorem claim_c1_tier_order_witness :
    (Simpress.toListener undefEnv appC1 st0).2
      = [Ev.mw 1, Ev.mw 2, Ev.mw 3, Ev.mw 4, Ev.handler 9]
    ∧ ((Simpress.toListener undefEnv appC1 st0).2).count (Ev.handler 9) = 1 :=
  claim_c1_tier_order undefEnv appC1 st0 appC1.defaultRouter routeC1 rfl
    (fun _ _ _ => rfl)

/-- Every event the error cascade emits is an error-middleware event of
the tier's own list. -/
theorem runCascade_events (env : MwEnv) :
    ∀ (emws : List Nat) (e : JsValue) (st : PipeSt),
      ∀ ev ∈ (runCascade env e emws st).2, ∃ i ∈ emws, ev = Ev.emw i := by
  intro emws
  induction emws with
  | nil => intro e st ev hev; simp [runCascade] at hev
  | cons i rest ih =>
      intro e st ev hev
      by_cases h : (env.emwRun i e st).2 = JsValue.undef
      · simp [runCascade, h] at hev
        exact ⟨i, by simp, hev⟩
      · simp [runCascade, h] at hev
        rcases hev with hev | hev
        · exact ⟨i, by simp, hev⟩
        · obtain ⟨j, hj, hje⟩ := ih (env.emwRun i e st).2 (env.emwRun i e st).1 ev hev
          exact ⟨j, by simp [hj], hje⟩

/-- If no error middleware of the tier ever resolves, the cascade runs
all of them, in order. -/
theorem runCascade_exhaust (env : MwEnv) :
    ∀ (emws : List Nat) (e : JsValue) (st : PipeSt),
      (∀ i ∈ emws, ∀ v s, (env.emwRun i v s).2 ≠ JsValue.undef) →
      (runCascade env e emws st).2 = emws.map Ev.emw := by
  intro emws
  induction emws with
  | nil => intro e st _; rfl
  | cons i rest ih =>
      intro e st h
      have hi := h i (by simp) e st
      have ihr := ih (env.emwRun i e st).2 (env.emwRun i e st).1
        (fun j hj v s => h j (by simp [hj]) v s)
      simp [runCascade, hi, ihr]

/-- If the error middlewares before `ej` never resolve and `ej` always
resolves, the cascade runs exactly them and stops at `ej`: nothing after
`ej` in the tier's list ever runs. -/
theorem runCascade_resolve (env : MwEnv) :
    ∀ (epre : List Nat) (ej : Nat) (epost : List Nat) (e : JsValue) (st : PipeSt),
      (∀ i ∈ epre, ∀ v s, (env.emwRun i v s).2 ≠ JsValue.undef) →
      (∀ v s, (env.emwRun ej v s).2 = JsValue.undef) →
      (runCascade env e (epre ++ ej :: epost) st).2 = epre.map Ev.emw ++ [Ev.emw ej] := by
  intro epre
  induction epre with
  | nil =>
      intro ej epost e st _ hj
      simp [runCascade, hj e st]
  | cons i rest ih =>
      intro ej epost e st h hj
      have hi := h i (by simp) e st
      have ihr := ih ej epost (env.emwRun i e st).2 (env.emwRun i e st).1
        (fun j' hj' v s => h j' (by simp [hj']) v s) hj
      simp [runCascade, hi, ihr]

/-- A tier whose middleware at some position signals an error runs only
the middlewares before it, then that middleware, then this tier's
cascade, and stops the pipeline: the middlewares after it never run. -/
theorem runMws_fail (env : MwEnv) (emws : List Nat) :
    ∀ (pre : List Nat) (mbad : Nat) (post : List Nat) (e : JsValue) (st : PipeSt),
      (∀ m ∈ pre, ∀ s, (env.mwRun m s).2 = JsValue.undef) →
      (∀ s, (env.mwRun mbad s).2 = e) →
      e ≠ JsValue.undef →
      ∃ st', (runMws env emws (pre ++ mbad :: post) st).2
        = (pre.map Ev.mw ++ Ev.mw mbad :: (runCascade env e emws st').2, false) := by
  intro pre
  induction pre with
  | nil =>
      intro mbad post e st _ hbad hne
      refine ⟨(env.mwRun mbad st).1, ?_⟩
      have h2 := hbad st
      simp [runMws, h2, hne]
  | cons m rest ih =>
      intro mbad post e st h hbad hne
      have hm := h m (by simp) st
      obtain ⟨st', hst'⟩ := ih mbad post e (env.mwRun m st).1
        (fun m' h' s => h m' (by simp [h']) s) hbad hne
      exact ⟨st', by simp [runMws, hm, hst']⟩

/-- Tier-loop version: with clean earlier tiers and a failing middleware
in one tier, the loop emits the earlier tiers' events, the failing tier's
prefix, the failing middleware, and that tier's cascade, and stops, so
the later tiers never run. -/
theorem runTiers_fail (env : MwEnv) :
    ∀ (preT : List (List Nat × List Nat)) (pre : List Nat) (mbad : Nat) (post : List Nat)
      (emws : List Nat) (postT : List (List Nat × List Nat)) (e : JsValue) (st : PipeSt),
      (∀ m ∈ (preT.map Prod.fst).flatten ++ pre, ∀ s, (env.mwRun m s).2 = JsValue.undef) →
      (∀ s, (env.mwRun mbad s).2 = e) →
      e ≠ JsValue.undef →
      ∃ st', (runTiers env (preT ++ (pre ++ mbad :: post, emws) :: postT) st).2
        = ((preT.map (fun t => t.1.map Ev.mw)).flatten
            ++ pre.map Ev.mw ++ Ev.mw mbad :: (runCascade env e emws st').2, false) := by
  intro preT
  induction preT with
  | nil =>
      intro pre mbad post emws postT e st h hbad hne
      simp only [List.map_nil, List.flatten_nil, List.nil_append] at h ⊢
      obtain ⟨st', hst'⟩ := runMws_fail env emws pre mbad post e st h hbad hne
      exact ⟨st', by simp [runTiers, hst']⟩
  | cons t restT ih =>
      intro pre mbad post emws postT e st h hbad hne
      simp only [List.map_cons, List.flatten_cons, List.append_assoc] at h
      have h1 : ∀ m ∈ t.1, ∀ s, (env.mwRun m s).2 = JsValue.undef :=
        fun m hm s => h m (List.mem_append_left _ hm) s
      have h2 : ∀ m ∈ (restT.map Prod.fst).flatten ++ pre,
          ∀ s, (env.mwRun m s).2 = JsValue.undef :=
        fun m hm s => h m (List.mem_append_right _ hm) s
      have hmws := runMws_ok env t.2 t.1 st h1
      obtain ⟨st', hst'⟩ := ih pre mbad post emws postT e (runMws env t.2 t.1 st).1 h2 hbad hne
      exact ⟨st', by simp [runTiers, hmws, hst']⟩

/-- A handler event never occurs among the flattened middleware events of
a tier list. -/
theorem handler_not_in_mw_flatten (l : Nat) (Ls : List (List Nat × List Nat)) :
    Ev.handler l ∉ (Ls.map (fun t => t.1.map Ev.mw)).flatten := by
  intro h
  rw [List.mem_flatten] at h
  obtain ⟨s, hs, hmem⟩ := h
  rw [List.mem_map] at hs
  obtain ⟨t, _, rfl⟩ := hs
  rw [List.mem_map] at hmem
  obtain ⟨m, _, hEq⟩ := hmem
  cases hEq

/-- A handler event never occurs among plain middleware events. -/
theorem handler_not_in_map_mw (l : Nat) (L : List Nat) : Ev.handler l ∉ L.map Ev.mw := by
  intro h
  rw [List.mem_map] at h
  obtain ⟨m, _, hEq⟩ := h
  cases hEq

/-- Claim C2: if middleware `mbad` of one tier signals an error, the
middlewares after it in that tier, all middlewares of later tiers, and
the route's handler never run; instead that same tier's error-middleware
list runs sequentially with the error value. -/
theorem claim_c2_error_skips (env : MwEnv) (app : Simpress) (st : PipeSt)
    (router : Router) (route : Route)
    (preT : List (List Nat × List Nat)) (pre : List Nat) (mbad : Nat) (post : List Nat)
    (emws : List Nat) (postT : List (List Nat × List Nat)) (e : JsValue)
    (hmatch : firstMatch app st.req = some (router, route))
    (htiers : tiersOf app router route = preT ++ (pre ++ mbad :: post, emws) :: postT)
    (hpre : ∀ m ∈ (preT.map Prod.fst).flatten ++ pre, ∀ s, (env.mwRun m s).2 = JsValue.undef)
    (hbad : ∀ s, (env.mwRun mbad s).2 = e)
    (hne : e ≠ JsValue.undef) :
    ∃ cevs, (Simpress.toListener env app st).2
        = (preT.map (fun t => t.1.map Ev.mw)).flatten ++ pre.map Ev.mw ++ Ev.mw mbad :: cevs
      ∧ (∀ ev ∈ cevs, ∃ i ∈ emws, ev = Ev.emw i)
      ∧ ∀ l, Ev.handler l ∉ (Simpress.toListener env app st).2 := by
  obtain ⟨st', hst'⟩ := runTiers_fail env preT pre mbad post emws postT e
      (⟨⟨st.req.url, st.req.method, some route.path⟩, st.res⟩ : PipeSt) hpre hbad hne
  rw [← htiers] at hst'
  have htrace : (Simpress.toListener env app st).2
      = (preT.map (fun t => t.1.map Ev.mw)).flatten ++ pre.map Ev.mw
        ++ Ev.mw mbad :: (runCascade env e emws st').2 := by
    simp [Simpress.toListener, hmatch, hst']
  refine ⟨(runCascade env e emws st').2, htrace, runCascade_events env emws e st', ?_⟩
  intro l hl
  rw [htrace] at hl
  rcases List.mem_append.1 hl with h1 | h1
  · rcases List.mem_append.1 h1 with h2 | h2
    · exact handler_not_in_mw_flatten l preT h2
    · exact handler_not_in_map_mw l pre h2
  · rcases List.mem_cons.1 h1 with h2 | h2
    · cases h2
    · obtain ⟨j, _, hje⟩ := runCascade_events env emws e st' _ h2
      cases hje

/-- Witness for C2: middleware 5 of the route tier errors, so middleware
6 of the same tier never runs, the handler never runs, and the emitted
tail consists only of route-tier error-middleware events. -/
theorem claim_c2_error_skips_witness :
    ∃ cevs, (Simpress.toListener envFail appC2 st0).2 = Ev.mw 1 :: Ev.mw 5 :: cevs
      ∧ (∀ ev ∈ cevs, ∃ i ∈ [7, 8], ev = Ev.emw i)
      ∧ ∀ l, Ev.handler l ∉ (Simpress.toListener envFail appC2 st0).2 :=
  claim_c2_error_skips envFail appC2 st0 appC2.defaultRouter routeC2
    [([1], []), ([], [])] [] 5 [6] [7, 8] [] (JsValue.errObj "boom")
    rfl rfl
    (fun m hm s => by
      have hm1 : m = 1 := by simpa using hm
      subst hm1; rfl)
    (fun _ => rfl) (by decide)

/-- Claim C3: if an error middleware `ej` of the failing tier resolves
the error (passes `undefined`), the pipeline terminates immediately: the
error middlewares after `ej`, all middlewares of later tiers, and the
route's handler never run. -/
theorem claim_c3_resolve_terminates (env : MwEnv) (app : Simpress) (st : PipeSt)
    (router : Router) (route : Route)
    (preT : List (List Nat × List Nat)) (pre : List Nat) (mbad : Nat) (post : List Nat)
    (epre : List Nat) (ej : Nat) (epost : List Nat)
    (postT : List (List Nat × List Nat)) (e : JsValue)
    (hmatch : firstMatch app st.req = some (router, route))
    (htiers : tiersOf app router route
      = preT ++ (pre ++ mbad :: post, epre ++ ej :: epost) :: postT)
    (hpre : ∀ m ∈ (preT.map Prod.fst).flatten ++ pre, ∀ s, (env.mwRun m s).2 = JsValue.undef)
    (hbad : ∀ s, (env.mwRun mbad s).2 = e)
    (hne : e ≠ JsValue.undef)
    (hepre : ∀ i ∈ epre, ∀ v s, (env.emwRun i v s).2 ≠ JsValue.undef)
    (hej : ∀ v s, (env.emwRun ej v s).2 = JsValue.undef) :
    (Simpress.toListener env app st).2
      = (preT.map (fun t => t.1.map Ev.mw)).flatten ++ pre.map Ev.mw
        ++ Ev.mw mbad :: (epre.map Ev.emw ++ [Ev.emw ej])
    ∧ ∀ l, Ev.handler l ∉ (Simpress.toListener env app st).2 := by
  obtain ⟨st', hst'⟩ := runTiers_fail env preT pre mbad post (epre ++ ej :: epost) postT e
      (⟨⟨st.req.url, st.req.method, some route.path⟩, st.res⟩ : PipeSt) hpre hbad hne
  rw [← htiers] at hst'
  rw [runCascade_resolve env epre ej epost e st' hepre hej] at hst'
  have htrace : (Simpress.toListener env app st).2
      = (preT.map (fun t => t.1.map Ev.mw)).flatten ++ pre.map Ev.mw
        ++ Ev.mw mbad :: (epre.map Ev.emw ++ [Ev.emw ej]) := by
    simp [Simpress.toListener, hmatch, hst']
  refine ⟨htrace, ?_⟩
  intro l hl
  rw [htrace] at hl
  rcases List.mem_append.1 hl with h1 | h1
  · rcases List.mem_append.1 h1 with h2 | h2
    · exact handler_not_in_mw_flatten l preT h2
    · exact handler_not_in_map_mw l pre h2
  · rcases List.mem_cons.1 h1 with h2 | h2
    · cases h2
    · rcases List.mem_append.1 h2 with h3 | h3
      · rw [List.mem_map] at h3
        obtain ⟨j, _, hje⟩ := h3
        cases hje
      · rcases List.mem_cons.1 h3 with h4 | h4
        · cases h4
        · cases h4

/-- Witness for C3: the route-tier middleware 5 errors; error middleware
8 re-signals, 7 resolves; error middleware 9 and the handler never run. -/
theorem claim_c3_resolve_terminates_witness :
    (Simpress.toListener envFail appC3 st0).2 = [Ev.mw 5, Ev.emw 8, Ev.emw 7]
    ∧ ∀ l, Ev.handler l ∉ (Simpress.toListener envFail appC3 st0).2 :=
  claim_c3_resolve_terminates envFail appC3 st0 appC3.defaultRouter routeC3
    [([], []), ([], [])] [] 5 [] [8] 7 [9] [] (JsValue.errObj "boom")
    rfl rfl
    (fun m hm _ => by simp at hm)
    (fun _ => rfl) (by decide)
    (fun i hi v s => by
      have hi8 : i = 8 := by simpa using hi
      subst hi8; simp [envFail])
    (fun _ _ => rfl)

/-- If no error middleware writes to the response, the cascade leaves the
response untouched. -/
theorem runCascade_res (env : MwEnv)
    (hemw : ∀ i v s, ((env.emwRun i v s).1).res = s.res) :
    ∀ (emws : List Nat) (e : JsValue) (st : PipeSt),
      ((runCascade env e emws st).1).res = st.res := by
  intro emws
  induction emws with
  | nil => intro e st; rfl
  | cons i rest ih =>
      intro e st
      by_cases h : (env.emwRun i e st).2 = JsValue.undef
      · simp [runCascade, h, hemw]
      · simp [runCascade, h]
        rw [ih, hemw]

/-- If no middleware or error middleware writes to the response, a tier
leaves the response untouched. -/
theorem runMws_res (env : MwEnv) (emws : List Nat)
    (hmw : ∀ m s, ((env.mwRun m s).1).res = s.res)
    (hemw : ∀ i v s, ((env.emwRun i v s).1).res = s.res) :
    ∀ (mws : List Nat) (st : PipeSt), ((runMws env emws mws st).1).res = st.res := by
  intro mws
  induction mws with
  | nil => intro st; rfl
  | cons m rest ih =>
      intro st
      by_cases h : (env.mwRun m st).2 = JsValue.undef
      · simp [runMws, h]
        rw [ih, hmw]
      · simp [runMws, h]
        rw [runCascade_res env hemw, hmw]

/-- If no middleware or error middleware writes to the response, the tier
loop leaves the response untouched. -/
theorem runTiers_res (env : MwEnv)
    (hmw : ∀ m s, ((env.mwRun m s).1).res = s.res)
    (hemw : ∀ i v s, ((env.emwRun i v s).1).res = s.res) :
    ∀ (tiers : List (List Nat × List Nat)) (st : PipeSt),
      ((runTiers env tiers st).1).res = st.res := by
  intro tiers
  induction tiers with
  | nil => intro st; rfl
  | cons t rest ih =>
      intro st
      by_cases h : (runMws env t.2 t.1 st).2.2 = true
      · simp [runTiers, h]
        rw [ih, runMws_res env t.2 hmw hemw]
      · simp [runTiers, h]
        rw [runMws_res env t.2 hmw hemw]

/-- Claim C8: when the failing tier's error-middleware list is exhausted
without any error middleware resolving the error, the cascade runs the
whole list, the route's handler never runs, and — when the middlewares
themselves write nothing — the core writes no response at all: the
response leaves the dispatcher exactly as it entered (no default 404/500
fallback is synthesised). -/
theorem claim_c8_unrecovered (env : MwEnv) (app : Simpress) (st : PipeSt)
    (router : Router) (route : Route)
    (preT : List (List Nat × List Nat)) (pre : List Nat) (mbad : Nat) (post : List Nat)
    (emws : List Nat) (postT : List (List Nat × List Nat)) (e : JsValue)
    (hmatch : firstMatch app st.req = some (router, route))
    (htiers : tiersOf app router route = preT ++ (pre ++ mbad :: post, emws) :: postT)
    (hpre : ∀ m ∈ (preT.map Prod.fst).flatten ++ pre, ∀ s, (env.mwRun m s).2 = JsValue.undef)
    (hbad : ∀ s, (env.mwRun mbad s).2 = e)
    (hne : e ≠ JsValue.undef)
    (hexh : ∀ i ∈ emws, ∀ v s, (env.emwRun i v s).2 ≠ JsValue.undef)
    (hmwres : ∀ m s, ((env.mwRun m s).1).res = s.res)
    (hemwres : ∀ i v s, ((env.emwRun i v s).1).res = s.res) :
    (Simpress.toListener env app st).2
      = (preT.map (fun t => t.1.map Ev.mw)).flatten ++ pre.map Ev.mw
        ++ Ev.mw mbad :: emws.map Ev.emw
    ∧ (∀ l, Ev.handler l ∉ (Simpress.toListener env app st).2)
    ∧ ((Simpress.toListener env app st).1).res = st.res := by
  obtain ⟨st', hst'⟩ := runTiers_fail env preT pre mbad post emws postT e
      (⟨⟨st.req.url, st.req.method, some route.path⟩, st.res⟩ : PipeSt) hpre hbad hne
  rw [← htiers] at hst'
  rw [runCascade_exhaust env emws e st' hexh] at hst'
  have htrace : (Simpress.toListener env app st).2
      = (preT.map (fun t => t.1.map Ev.mw)).flatten ++ pre.map Ev.mw
        ++ Ev.mw mbad :: emws.map Ev.emw := by
    simp [Simpress.toListener, hmatch, hst']
  have hres : ((Simpress.toListener env app st).1).res = st.res := by
    have hr := runTiers_res env hmwres hemwres (tiersOf app router route)
      (⟨⟨st.req.url, st.req.method, some route.path⟩, st.res⟩ : PipeSt)
    simp [Simpress.toListener, hmatch, hst']
    exact hr
  refine ⟨htrace, ?_, hres⟩
  intro l hl
  rw [htrace] at hl
  rcases List.mem_append.1 hl with h1 | h1
  · rcases List.mem_append.1 h1 with h2 | h2
    · exact handler_not_in_mw_flatten l preT h2
    · exact handler_not_in_map_mw l pre h2
  · rcases List.mem_cons.1 h1 with h2 | h2
    · cases h2
    · rw [List.mem_map] at h2
      obtain ⟨j, _, hje⟩ := h2
      cases hje

/-- Witness for C8: middleware 5 errors, the only error middleware 8
re-signals, so the cascade exhausts; the handler never runs and the
response is exactly the untouched initial response. -/
theorem claim_c8_unrecovered_witness :
    (Simpress.toListener envFail appC8 st0).2 = [Ev.mw 5, Ev.emw 8]
    ∧ (∀ l, Ev.handler l ∉ (Simpress.toListener envFail appC8 st0).2)
    ∧ ((Simpress.toListener envFail appC8 st0).1).res = st0.res :=
  claim_c8_unrecovered envFail appC8 st0 appC8.defaultRouter routeC8
    [([], []), ([], [])] [] 5 [] [8] [] (JsValue.errObj "boom")
    rfl rfl
    (fun m hm _ => by simp at hm)
    (fun _ => rfl) (by decide)
    (fun i hi v s => by
      have hi8 : i = 8 := by simpa using hi
      subst hi8; simp [envFail])
    (fun _ _ => rfl) (fun _ _ _ => rfl)

/-- If no route of a routes map matches, the scan returns nothing. -/
theorem findInRoutes_none (req : Req) :
    ∀ (routes : List (String × Route)),
      (∀ kr ∈ routes, matchesRoute kr.2 req = false) →
      findInRoutes req routes = none := by
  intro routes
  induction routes with
  | nil => intro _; rfl
  | cons kr rest ih =>
      intro h
      have h1 := h kr (by simp)
      simp [findInRoutes, h1]
      exact ih (fun kr' h' => h kr' (by simp [h']))

/-- If no route of any router matches, the router scan returns nothing. -/
theorem firstMatchAux_none (req : Req) :
    ∀ (routers : List Router),
      (∀ rt ∈ routers, ∀ kr ∈ rt.routes, matchesRoute kr.2 req = false) →
      firstMatchAux req routers = none := by
  intro routers
  induction routers with
  | nil => intro _; rfl
  | cons rt rest ih =>
      intro h
      have h1 := findInRoutes_none req rt.routes (h rt (by simp))
      simp [firstMatchAux, h1]
      exact ih (fun rt' h' => h rt' (by simp [h']))

/-- Claim C5: for a request matched by no registered route of any router,
the dispatcher produces exactly a 404 response with nothing written as a
body, and no middleware, error middleware, or handler runs (the event
trace is empty), whatever the middleware configuration. -/
theorem claim_c5_404 (env : MwEnv) (app : Simpress) (st : PipeSt)
    (h : ∀ rt ∈ app.allRouters, ∀ kr ∈ rt.routes, matchesRoute kr.2 st.req = false) :
    Simpress.toListener env app st = ({ st with res := write404 st.res }, []) := by
  have hfm : firstMatch app st.req = none := firstMatchAux_none st.req app.allRouters h
  simp [Simpress.toListener, hfm]

/-- Witness for C5: the sample app has one POST route and carries
middlewares at both the application and route tiers; a GET request gets
exactly the 404 (status 404, stream ended, no body) and an empty trace. -/
theorem claim_c5_404_witness :
    (∀ rt ∈ appC5.allRouters, ∀ kr ∈ rt.routes, matchesRoute kr.2 st0.req = false)
    ∧ Simpress.toListener undefEnv appC5 st0 = ({ st0 with res := write404 st0.res }, [])
    ∧ (Simpress.toListener undefEnv appC5 st0).1.res
        = { status := some 404, body := none, ended := true } :=
  ⟨by decide, claim_c5_404 undefEnv appC5 st0 (by decide),
   by rw [claim_c5_404 undefEnv appC5 st0 (by decide)]; rfl⟩

/-- `Map.get` after `Map.set` of the same key returns the newly set
value, whatever was stored before. -/
theorem mapGet_mapSet (k : String) (v : Route) :
    ∀ (l : List (String × Route)), mapGet k (mapSet k v l) = some v := by
  intro l
  induction l with
  | nil => simp [mapSet, mapGet]
  | cons kv rest ih =>
      obtain ⟨k', v'⟩ := kv
      by_cases h : k' = k
      · simp [mapSet, mapGet, h]
      · simp [mapSet, mapGet, h, ih]

/-- Claim C4: registering a route stores it under the `(method, pattern
source)` key, silently replacing any prior route at that key, and a
subsequent `findRoute` with the identical path and method returns the
most recently registered route, whose listener is the one just
registered. -/
theorem claim_c4_register_find (app : Simpress) (p m : String) (l1 l2 : Nat)
    (app1 : Simpress) (r1 : Route) (app2 : Simpress) (r2 : Route)
    (h1 : app.route (PathSpec.str p) m l1 = Except.ok (app1, r1))
    (h2 : app1.route (PathSpec.str p) m l2 = Except.ok (app2, r2)) :
    app2.findRoute (PathSpec.str p) m = Except.ok (some r2) ∧ r2.listener = l2 := by
  cases hc : compilePath (PathSpec.str p) with
  | none =>
      rw [Simpress.route, hc] at h1
      simp at h1
  | some pat =>
      rw [Simpress.route, hc] at h1
      simp only [Except.ok.injEq, Prod.mk.injEq] at h1
      obtain ⟨ha1, hr1⟩ := h1
      subst ha1
      rw [Simpress.route, hc] at h2
      simp only [Except.ok.injEq, Prod.mk.injEq] at h2
      obtain ⟨ha2, hr2⟩ := h2
      subst ha2
      subst hr2
      refine ⟨?_, rfl⟩
      rw [Simpress.findRoute, hc]
      simp [Simpress.allRouters, findInRouters, mapGet_mapSet]

/-- Witness for C4: registering listener 1 then listener 2 at
`GET /x`; `findRoute` returns the second route. -/
theorem claim_c4_register_find_witness :
    app2w.findRoute (PathSpec.str "/x") "GET" = Except.ok (some r2w) ∧ r2w.listener = 2 :=
  claim_c4_register_find Simpress.new "/x" "GET" 1 2 app1w r1w app2w r2w rfl rfl

/-- Claim C6: a route registered from a literal string path gets a
pattern whose unanchored `|\?` branch makes it match every request URL
containing a `?`, regardless of the URL's path segment. -/
theorem claim_c6_query_matches_all (app : Simpress) (p m : String) (l : Nat)
    (app' : Simpress) (r : Route) (url : String)
    (hreg : app.route (PathSpec.str p) m l = Except.ok (app', r))
    (hq : url.data.contains '?' = true) :
    r.path.test url = true := by
  cases hc : compilePath (PathSpec.str p) with
  | none =>
      rw [Simpress.route, hc] at hreg
      simp at hreg
  | some pat =>
      rw [Simpress.route, hc] at hreg
      simp only [Except.ok.injEq, Prod.mk.injEq] at hreg
      obtain ⟨-, hr⟩ := hreg
      subst hr
      simp only [compilePath, compileString, Option.map_eq_some'] at hc
      obtain ⟨atoms, -, hpat⟩ := hc
      subst hpat
      simp only [strPatternTest]
      rw [hq]
      simp

/-- Witness for C6: the route registered at `GET /x` matches the URL
`/zzz?q=1`, whose path segment has nothing to do with `/x`. -/
theorem claim_c6_query_matches_all_witness :
    r1w.path.test "/zzz?q=1" = true :=
  claim_c6_query_matches_all Simpress.new "/x" "GET" 1 app1w r1w "/zzz?q=1" rfl (by decide)

/-- Counterexample for C7: the claim says a literal string path is
escaped (metacharacters neutralised), which would make the pattern for
`/a.b` reject `/axb`; the code inserts the string into the regex
verbatim, so its `.` stays a wildcard and the pattern built for `/a.b`
does match `/axb`, while the spec's escaped reading rejects it. -/
theorem claim_c7_counterexample :
    (compileString "/a.b").map (fun pat => pat.test "/axb") = some true
    ∧ (compileString "/a.b").map (fun pat => pat.test "/a.b") = some true
    ∧ specEscapedTest "/a.b" "/axb" = false := by decide

/-- Claim C7 (amended): a literal string path is inserted into the
pattern source verbatim — unescaped, so regex metacharacters keep their
meaning — and the pattern's path branch is anchored at the start with an
optional trailing `/` before end-of-string, alongside the extra
unanchored branch matching any URL containing `?`. -/
theorem claim_c7_amended (app : Simpress) (p m : String) (l : Nat)
    (app' : Simpress) (r : Route) (atoms : List RxAtom) (url : String)
    (hp : parseAtoms p.data = some atoms)
    (hreg : app.route (PathSpec.str p) m l = Except.ok (app', r)) :
    r.path.source = "^" ++ p ++ "\\/?$|\\?"
    ∧ r.path.test url
        = (atomsTest atoms url.data
            || (url.data.getLast? == some '/' && atomsTest atoms url.data.dropLast)
            || url.data.contains '?') := by
  cases hc : compilePath (PathSpec.str p) with
  | none =>
      rw [Simpress.route, hc] at hreg
      simp at hreg
  | some pat =>
      rw [Simpress.route, hc] at hreg
      simp only [Except.ok.injEq, Prod.mk.injEq] at hreg
      obtain ⟨-, hr⟩ := hreg
      subst hr
      simp only [compilePath, compileString, Option.map_eq_some'] at hc
      obtain ⟨atoms', hatoms, hpat⟩ := hc
      rw [hp] at hatoms
      obtain rfl : atoms' = atoms := Option.some_injective _ hatoms.symm
      subst hpat
      exact ⟨rfl, rfl⟩

/-- Witness for C7 (amended) at path `/a.b` and URL `/a.b/`. -/
theorem claim_c7_amended_witness :
    rAB.path.source = "^" ++ "/a.b" ++ "\\/?$|\\?"
    ∧ rAB.path.test "/a.b/"
        = (atomsTest [RxAtom.lit '/', RxAtom.lit 'a', RxAtom.anyDot, RxAtom.lit 'b']
              "/a.b/".data
            || ("/a.b/".data.getLast? == some '/'
                && atomsTest [RxAtom.lit '/', RxAtom.lit 'a', RxAtom.anyDot, RxAtom.lit 'b']
                  "/a.b/".data.dropLast)
            || "/a.b/".data.contains '?') :=
  claim_c7_amended Simpress.new "/a.b" "GET" 0 appAB rAB
    [RxAtom.lit '/', RxAtom.lit 'a', RxAtom.anyDot, RxAtom.lit 'b'] "/a.b/"
    (by decide) rfl

/-- Claim C9: a malformed literal path makes registration itself fail
with the invalid-pattern error (the `RegExp` constructor runs inside
`route`), and a successful registration yields a route whose matching
predicate is a total function of the URL — matching can never fail. -/
theorem claim_c9_invalid_at_registration (app : Simpress) (p m : String) (l : Nat) :
    (parseAtoms p.data = none →
      app.route (PathSpec.str p) m l = Except.error PatternError.invalidPattern)
    ∧ ∀ atoms, parseAtoms p.data = some atoms →
        ∃ pr, app.route (PathSpec.str p) m l = Except.ok pr
          ∧ ∀ u, (pr.2).path.test u = strPatternTest atoms u.data := by
  constructor
  · intro h
    rw [Simpress.route]
    simp [compilePath, compileString, h]
  · intro atoms h
    rw [Simpress.route]
    simp only [compilePath, compileString, h, Option.map_some']
    exact ⟨_, rfl, fun u => rfl⟩

/-- Witness for C9: the path `(` (an unclosed regex group once embedded
in the pattern) fails at registration time. -/
theorem claim_c9_invalid_at_registration_witness :
    parseAtoms "(".data = none
    ∧ Simpress.new.route (PathSpec.str "(") "GET" 0
        = Except.error PatternError.invalidPattern :=
  ⟨by decide, (claim_c9_invalid_at_registration Simpress.new "(" "GET" 0).1 (by decide)⟩

/-- Claim C10: the pipeline treats exactly `undefined` as success.  With
middleware 0 passing `v` and error middleware 1 passing `w`: for any
`v ≠ undefined` the cascade is entered (middleware 0's error event is
followed by error-middleware events and the handler never runs), and for
any `w ≠ undefined` error middleware 1 does not resolve, so error
middleware 2 also runs; with `w = undefined` the cascade stops at error
middleware 1; with `v = undefined` the pipeline instead reaches the
handler. -/
theorem claim_c10_undef_is_success (v w : JsValue)
    (hv : v ≠ JsValue.undef) (hw : w ≠ JsValue.undef) :
    (Simpress.toListener (envC10 v w) appC10 st0).2 = [Ev.mw 0, Ev.emw 1, Ev.emw 2]
    ∧ (∀ l, Ev.handler l ∉ (Simpress.toListener (envC10 v w) appC10 st0).2)
    ∧ (Simpress.toListener (envC10 v JsValue.undef) appC10 st0).2 = [Ev.mw 0, Ev.emw 1]
    ∧ (Simpress.toListener (envC10 JsValue.undef w) appC10 st0).2
        = [Ev.mw 0, Ev.handler 9] := by
  have h1 : (Simpress.toListener (envC10 v w) appC10 st0).2
      = [Ev.mw 0, Ev.emw 1, Ev.emw 2] := by
    simp [Simpress.toListener, firstMatch, firstMatchAux, findInRoutes, matchesRoute,
      Simpress.allRouters, tiersOf, runTiers, runMws, runCascade, envC10, appC10,
      routeC10, st0, req0, patTrue, hv, hw]
  refine ⟨h1, ?_, ?_, ?_⟩
  · intro l hl
    rw [h1] at hl
    simp at hl
  · simp [Simpress.toListener, firstMatch, firstMatchAux, findInRoutes, matchesRoute,
      Simpress.allRouters, tiersOf, runTiers, runMws, runCascade, envC10, appC10,
      routeC10, st0, req0, patTrue, hv]
  · simp [Simpress.toListener, firstMatch, firstMatchAux, findInRoutes, matchesRoute,
      Simpress.allRouters, tiersOf, runTiers, runMws, runCascade, envC10, appC10,
      routeC10, st0, req0, patTrue]

/-- Witness for C10 at the concrete non-`undefined` values `null` and
`false`. -/
theorem claim_c10_undef_is_success_witness :
    (Simpress.toListener (envC10 JsValue.nullV (JsValue.boolean false)) appC10 st0).2
        = [Ev.mw 0, Ev.emw 1, Ev.emw 2]
    ∧ (∀ l, Ev.handler l
        ∉ (Simpress.toListener (envC10 JsValue.nullV (JsValue.boolean false)) appC10 st0).2)
    ∧ (Simpress.toListener (envC10 JsValue.nullV JsValue.undef) appC10 st0).2
        = [Ev.mw 0, Ev.emw 1]
    ∧ (Simpress.toListener (envC10 JsValue.undef (JsValue.boolean false)) appC10 st0).2
        = [Ev.mw 0, Ev.handler 9] :=
  claim_c10_undef_is_success JsValue.nullV (JsValue.boolean false) (by decide) (by decide)
